import Mathlib

/-!
Verification of the Takeoff chat-triggered merge gateway.

Shallow embedding of the core decision pipeline:
- `github_client.py`: merge orchestrator (`merge_pull_request`, `_get_pr_state`,
  `_parse_merge_response`) classifying GitHub API responses into `MergeResult`s.
- `slack_handler.py`: signature verification (`verify_slack_signature`),
  PR-URL extraction (`extract_pr`), merge-intent detection (`has_merge_intent`).
- `auth.py` / `config.py`: the authorization gate (`is_authorized`,
  `Settings.authorized_user_ids`).

HTTP responses are modelled as values (status code plus a parsed body, or a
transport error); JSON bodies are modelled at the record shapes the code reads
(boolean `merged`/`mergeable`, string `state`/`message`).  Exceptions that the
Python code may raise are modelled with `Except`: a `.error` value is an
uncaught Python exception propagating to the caller.  Character classes of the
regular expressions are modelled over their ASCII fragment, matching the
character sets the code and its tests exercise.
-/

namespace Takeoff

/-! ## Character and string helpers (ASCII fragment of Python semantics) -/

/-- Python whitespace (`\s`, `str.strip`, `int()` stripping), ASCII fragment. -/
def pyIsSpace (c : Char) : Bool :=
  c == ' ' || c == '\t' || c == '\n' || c == '\r' || c == '\x0b' || c == '\x0c'

/-- Word characters of Python regex `\w` / `\b` boundaries, ASCII fragment. -/
def isWordChar (c : Char) : Bool :=
  c.isAlpha || c.isDigit || c == '_'

/-- The character class `[A-Za-z0-9_.\-]` of `_PR_URL_PATTERN`. -/
def isNameChar (c : Char) : Bool :=
  c.isAlpha || c.isDigit || c == '_' || c == '.' || c == '-'

/-- Does `needle` stand at the head of `hay`?  (Exact character match.) -/
def leadsWith : List Char → List Char → Bool
  | [], _ => true
  | _ :: _, [] => false
  | a :: as, b :: bs => a == b && leadsWith as bs

/-- Does `needle` occur contiguously anywhere inside `hay`?
Models the Python `in` operator on strings. -/
def hasSub (needle : List Char) : List Char → Bool
  | [] => needle.isEmpty
  | c :: t => leadsWith needle (c :: t) || hasSub needle t

/-- Python `pattern in s` for strings. -/
def strContains (s pat : String) : Bool :=
  hasSub pat.toList s.toList

/-- Python `str.lower`, ASCII fragment. -/
def lowerStr (s : String) : String :=
  String.mk (s.toList.map Char.toLower)

/-- Python `str.strip()` on a character list: drop whitespace at both ends. -/
def stripChars (l : List Char) : List Char :=
  ((l.dropWhile pyIsSpace).reverse.dropWhile pyIsSpace).reverse

/-- Numeric value of a list of decimal digit characters. -/
def digitsVal (l : List Char) : Nat :=
  l.foldl (fun n c => 10 * n + (c.toNat - 48)) 0

/-! ## GitHub client (`github_client.py`) -/

/-- The `MergeStatus` enum. -/
inductive MergeStatus where
  | success
  | already_merged
  | conflict
  | checks_pending
  | not_found
  | error
deriving DecidableEq, Repr

/-- The `MergeResult` dataclass. -/
structure MergeResult where
  status : MergeStatus
  message : String
deriving DecidableEq, Repr

/-- An HTTP exchange as the Python code observes it: either the transport
layer raised (timeout, connection failure — modelled by the exception text),
or a response arrived with a status code and a body parsed as `β`. -/
inductive HttpReply (β : Type) where
  | transportError (msg : String)
  | response (status : Nat) (body : β)
deriving DecidableEq, Repr

/-- The fields of the PR-state JSON body that `_get_pr_state` reads.
`none` models both an absent key and JSON `null` (Python `dict.get` returns
`None` for both). -/
structure PrBody where
  merged : Option Bool
  state : Option String
  mergeable : Option Bool
deriving DecidableEq, Repr

/-- The field of the merge-call JSON body that `_parse_merge_response` reads. -/
structure MergeBody where
  message : Option String
deriving DecidableEq, Repr

/-- Exception text standing for the `json.JSONDecodeError` that
`response.json()` raises on a body that is not valid JSON. -/
def jsonDecodeErrorMsg : String := "JSONDecodeError: response body is not valid JSON"

def fetchNotFoundMsg (owner repo : String) (n : Nat) : String :=
  "PR #" ++ toString n ++ " not found in " ++ owner ++ "/" ++ repo ++ "."

def fetchErrorMsg (n status : Nat) : String :=
  "Failed to fetch PR #" ++ toString n ++ ": HTTP " ++ toString status ++ "."

def alreadyMergedMsg (n : Nat) : String :=
  "PR #" ++ toString n ++ " is already merged."

def closedMsg (n : Nat) : String :=
  "PR #" ++ toString n ++ " is closed without being merged."

def conflictMsg (n : Nat) : String :=
  "Cannot merge PR #" ++ toString n ++ " — there are merge conflicts."

def checksMsg (n : Nat) : String :=
  "Cannot merge PR #" ++ toString n ++ " — status checks have not passed."

def mergedOkMsg (n : Nat) : String :=
  "PR #" ++ toString n ++ " merged successfully."

def mergeNotFoundMsg (n : Nat) : String :=
  "PR #" ++ toString n ++ " not found."

def mergeErrorMsg (n : Nat) (reason : String) : String :=
  "Failed to merge PR #" ++ toString n ++ ": " ++ reason

/-- `_get_pr_state`: classify the fetch response, returning `some` outcome to
short-circuit or `none` to proceed to the merge call.  The `GET` itself and
`response.json()` are not wrapped in any `try` in the Python code, so a
transport error or an unparsable 200 body propagates as an exception
(`Except.error`). -/
def get_pr_state (resp : HttpReply (Option PrBody)) (owner repo : String)
    (pull_number : Nat) : Except String (Option MergeResult) :=
  match resp with
  | .transportError e => .error e
  | .response status body =>
    if status = 404 then
      .ok (some ⟨.not_found, fetchNotFoundMsg owner repo pull_number⟩)
    else if status ≠ 200 then
      .ok (some ⟨.error, fetchErrorMsg pull_number status⟩)
    else
      match body with
      | none => .error jsonDecodeErrorMsg
      | some data =>
        if data.merged = some true then
          .ok (some ⟨.already_merged, alreadyMergedMsg pull_number⟩)
        else if data.state = some "closed" then
          .ok (some ⟨.error, closedMsg pull_number⟩)
        else if data.mergeable = some false then
          .ok (some ⟨.conflict, conflictMsg pull_number⟩)
        else
          .ok none

/-- The `message` field as `_parse_merge_response` reads it:
`body.get("message", ...)` over a body that is `{}` when JSON parsing of the
response failed (the one `try`/`except` in the file). -/
def messageField (body : Option MergeBody) : Option String :=
  body.bind MergeBody.message

/-- `str(body.get("message", "")).lower()`. -/
def githubMessage (body : Option MergeBody) : String :=
  lowerStr ((messageField body).getD "")

/-- The 405 disambiguation test of `_parse_merge_response`. -/
def mentionsConflict (body : Option MergeBody) : Bool :=
  strContains (githubMessage body) "not mergeable" || strContains (githubMessage body) "conflict"

/-- `_parse_merge_response`: map the merge-call response to a `MergeResult`.
A body of `none` models a response whose body is not valid JSON — the Python
code catches that and proceeds with `body = {}`. -/
def parse_merge_response (status : Nat) (body : Option MergeBody)
    (pull_number : Nat) : MergeResult :=
  if status = 200 then
    ⟨.success, mergedOkMsg pull_number⟩
  else if status = 405 then
    if mentionsConflict body then
      ⟨.conflict, conflictMsg pull_number⟩
    else
      ⟨.checks_pending, checksMsg pull_number⟩
  else if status = 409 then
    ⟨.conflict, conflictMsg pull_number⟩
  else if status = 404 then
    ⟨.not_found, mergeNotFoundMsg pull_number⟩
  else
    let reason := match messageField body with
      | some m => if m = "" then "HTTP " ++ toString status else m
      | none => "HTTP " ++ toString status
    ⟨.error, mergeErrorMsg pull_number reason⟩

/-- `merge_pull_request`: fetch the PR state, short-circuit on a Step 1
outcome, otherwise issue the merge call and classify its response.  The two
HTTP exchanges are inputs; `Except.error` is an uncaught Python exception. -/
def merge_pull_request (fetchResp : HttpReply (Option PrBody))
    (mergeResp : HttpReply (Option MergeBody)) (owner repo : String)
    (pull_number : Nat) : Except String MergeResult :=
  match get_pr_state fetchResp owner repo pull_number with
  | .error e => .error e
  | .ok (some r) => .ok r
  | .ok none =>
    match mergeResp with
    | .transportError e => .error e
    | .response status body => .ok (parse_merge_response status body pull_number)

/-! ## Authorization gate (`auth.py`, `config.py`) -/

/-- The `Settings` configuration record (fields read by the core). -/
structure Settings where
  slack_bot_token : String
  slack_signing_secret : String
  github_token : String
  authorized_slack_user_ids : String
deriving DecidableEq, Repr

/-- Python `s.split(",")`: split on every comma, keeping empty pieces. -/
def splitOnComma : List Char → List (List Char)
  | [] => [[]]
  | ',' :: t => [] :: splitOnComma t
  | c :: t =>
    match splitOnComma t with
    | h :: r => (c :: h) :: r
    | [] => [[c]]

/-- `Settings.authorized_user_ids`: strip each comma-separated piece and keep
the non-empty ones.  (The Python property builds a set; a list models it up to
membership, which is all `is_authorized` uses.) -/
def authorized_user_ids (s : Settings) : List String :=
  ((splitOnComma s.authorized_slack_user_ids.toList).map
      (fun u => String.mk (stripChars u))).filter (fun u => u ≠ "")

/-- `is_authorized`: an empty allow-list denies everyone; otherwise test
membership. -/
def is_authorized (slack_user_id : String) (settings : Settings) : Bool :=
  if authorized_user_ids settings = [] then false
  else decide (slack_user_id ∈ authorized_user_ids settings)

/-! ## Signature verification (`slack_handler.py`) -/

/-- Digit/underscore well-formedness of the body of a Python integer literal
as `int()` accepts it: digits, with single underscores standing only between
digits.  The flag is true when the next character must be a digit (at the
start and right after an underscore). -/
def pyDigitsOk : Bool → List Char → Bool
  | true, [] => false
  | true, c :: r => c.isDigit && pyDigitsOk false r
  | false, [] => true
  | false, c :: r =>
    if c == '_' then pyDigitsOk true r else c.isDigit && pyDigitsOk false r

/-- Python `int(s)` on a decimal string (ASCII fragment): strip surrounding
whitespace, allow one optional sign, then digits with underscores between
digits; anything else raises `ValueError`, modelled as `none`. -/
def pyParseInt (s : String) : Option Int :=
  match stripChars s.toList with
  | '+' :: rest =>
    if pyDigitsOk true rest then
      some (Int.ofNat (digitsVal (rest.filter (fun c => !(c == '_')))))
    else none
  | '-' :: rest =>
    if pyDigitsOk true rest then
      some (-Int.ofNat (digitsVal (rest.filter (fun c => !(c == '_')))))
    else none
  | rest =>
    if pyDigitsOk true rest then
      some (Int.ofNat (digitsVal (rest.filter (fun c => !(c == '_')))))
    else none

/-- `verify_slack_signature`.  The ambient `time.time()` is the parameter
`now` (in seconds); the library call `hmac.new(key, msg, sha256).hexdigest()`
is the parameter `hmacSha256Hex`, applied to the key and the message.  The
raw request body is modelled as its UTF-8 text (for valid UTF-8 input,
`encode` after `decode` returns the original bytes).  The final comparison
models `hmac.compare_digest`, which returns equality of the two strings. -/
def verify_slack_signature (hmacSha256Hex : String → String → String) (now : Int)
    (body : String) (timestamp : String) (signature : String)
    (signing_secret : String) : Bool :=
  match pyParseInt timestamp with
  | none => false
  | some request_time =>
    if 300 < (now - request_time).natAbs then false
    else
      let base_string := "v0:" ++ timestamp ++ ":" ++ body
      let expected := "v0=" ++ hmacSha256Hex signing_secret base_string
      expected == signature

/-- A stand-in keyed-hash function used only to evaluate the verifier at
concrete inputs. -/
def hmacStub (key msg : String) : String := key ++ "|" ++ msg

/-! ## PR-URL extraction (`slack_handler.py`, `_PR_URL_PATTERN`) -/

/-- The literal head of `_PR_URL_PATTERN` (the characters of
"https://github.com/"). -/
def urlLit : List Char :=
  ['h', 't', 't', 'p', 's', ':', '/', '/', 'g', 'i', 't', 'h', 'u', 'b', '.',
   'c', 'o', 'm', '/']

/-- The literal `/pull/` between the repo group and the digits group. -/
def pullLit : List Char := ['/', 'p', 'u', 'l', 'l', '/']

/-- Consume the literal `p` from the head of `s`, returning the remainder. -/
def dropLit : List Char → List Char → Option (List Char)
  | [], s => some s
  | _ :: _, [] => none
  | p :: ps, c :: cs => if p == c then dropLit ps cs else none

/-- Greedy `+` over a character class: the maximal non-empty run satisfying
`p`, with the remainder.  Because no class of `_PR_URL_PATTERN` contains the
character that follows its group in the pattern, the regex's backtracking
never shortens these runs, so the greedy run is exact. -/
def munch (p : Char → Bool) (l : List Char) : Option (List Char × List Char) :=
  match l.takeWhile p with
  | [] => none
  | c :: cs => some (c :: cs, l.dropWhile p)

/-- The three captured groups of a `_PR_URL_PATTERN` match. -/
structure PrMatch where
  owner : List Char
  repo : List Char
  digits : List Char
deriving DecidableEq, Repr

/-- The literal `/` between the owner group and the repo group. -/
def expectSlash : List Char → Option (List Char)
  | [] => none
  | c :: r => if c == '/' then some r else none

/-- `_PR_URL_PATTERN` matching at the head of `s`:
`https://github\.com/([A-Za-z0-9_.\-]+)/([A-Za-z0-9_.\-]+)/pull/(\d+)`. -/
def matchPrAt (s : List Char) : Option PrMatch := do
  let r1 ← dropLit urlLit s
  let (owner, r2) ← munch isNameChar r1
  let r3 ← expectSlash r2
  let (repo, r4) ← munch isNameChar r3
  let r5 ← dropLit pullLit r4
  let (digits, _) ← munch Char.isDigit r5
  pure ⟨owner, repo, digits⟩

/-- `re.search`: the match at the leftmost position where one exists. -/
def searchPr : List Char → Option PrMatch
  | [] => none
  | c :: cs =>
    match matchPrAt (c :: cs) with
    | some m => some m
    | none => searchPr cs

/-- `match.group(0)`: the exact substring a match spans. -/
def matchUrl (m : PrMatch) : List Char :=
  urlLit ++ m.owner ++ ['/'] ++ m.repo ++ pullLit ++ m.digits

/-- The `ParsedPR` dataclass. -/
structure ParsedPR where
  owner : String
  repo : String
  pull_number : Nat
  url : String
deriving DecidableEq, Repr

/-- Python `int` on the digits-only capture group. -/
def digitsToNat (l : List Char) : Nat :=
  digitsVal l

/-- `extract_pr`: first `_PR_URL_PATTERN` match in the text, or `none`. -/
def extract_pr (text : String) : Option ParsedPR :=
  match searchPr text.toList with
  | none => none
  | some m =>
    some ⟨String.mk m.owner, String.mk m.repo, digitsToNat m.digits,
      String.mk (matchUrl m)⟩

/-- `s` begins with a substring of the pull-request URL shape: the literal
host, a non-empty owner over the name class, a slash, a non-empty repo over
the name class, the literal `/pull/`, and at least one digit. -/
def PrShapedAt (s : List Char) : Prop :=
  ∃ o r d rest,
    s = urlLit ++ (o ++ ('/' :: (r ++ (pullLit ++ (d ++ rest))))) ∧
    o ≠ [] ∧ r ≠ [] ∧ d ≠ [] ∧
    (∀ c ∈ o, isNameChar c = true) ∧ (∀ c ∈ r, isNameChar c = true) ∧
    (∀ c ∈ d, c.isDigit = true)

/-! ### Helper lemmas for the matcher -/

theorem dropLit_app : ∀ (p r : List Char), dropLit p (p ++ r) = some r := by
  intro p r
  induction p with
  | nil => rfl
  | cons c cs ih => simp [dropLit, ih]

theorem dropLit_some : ∀ (p s r : List Char), dropLit p s = some r → s = p ++ r := by
  intro p
  induction p with
  | nil =>
    intro s r h
    simp only [dropLit, Option.some.injEq] at h
    simp [h]
  | cons c cs ih =>
    intro s r h
    cases s with
    | nil => simp [dropLit] at h
    | cons b bs =>
      by_cases hcb : c = b
      · subst hcb
        simp only [dropLit, beq_self_eq_true, if_true] at h
        simp [ih bs r h]
      · simp [dropLit, hcb] at h

theorem mem_takeWhile_sat {p : Char → Bool} :
    ∀ (l : List Char) (c : Char), c ∈ l.takeWhile p → p c = true := by
  intro l
  induction l with
  | nil => intro c h; simp [List.takeWhile] at h
  | cons a as ih =>
    intro c h
    rw [List.takeWhile_cons] at h
    by_cases hp : p a
    · rw [if_pos hp] at h
      rcases List.mem_cons.mp h with h2 | h2
      · rw [h2]; exact hp
      · exact ih c h2
    · rw [if_neg hp] at h
      simp at h

theorem takeWhile_append_of_all {p : Char → Bool} :
    ∀ (o t : List Char), (∀ c ∈ o, p c = true) →
      List.takeWhile p (o ++ t) = o ++ List.takeWhile p t := by
  intro o
  induction o with
  | nil => intro t h; rfl
  | cons a as ih =>
    intro t h
    have hpa : p a = true := h a (by simp)
    simp only [List.cons_append, List.takeWhile_cons, hpa, if_true]
    rw [ih t (fun c hc => h c (by simp [hc]))]

theorem dropWhile_append_of_all {p : Char → Bool} :
    ∀ (o t : List Char), (∀ c ∈ o, p c = true) →
      List.dropWhile p (o ++ t) = List.dropWhile p t := by
  intro o
  induction o with
  | nil => intro t h; rfl
  | cons a as ih =>
    intro t h
    have hpa : p a = true := h a (by simp)
    simp only [List.cons_append, List.dropWhile_cons, hpa, if_true]
    exact ih t (fun c hc => h c (by simp [hc]))

theorem munch_some_spec {p : Char → Bool} :
    ∀ (l run rest : List Char), munch p l = some (run, rest) →
      l = run ++ rest ∧ run ≠ [] ∧ (∀ c ∈ run, p c = true) := by
  intro l run rest h
  unfold munch at h
  cases ht : l.takeWhile p with
  | nil => rw [ht] at h; simp at h
  | cons c cs =>
    rw [ht] at h
    simp only [Option.some.injEq, Prod.mk.injEq] at h
    obtain ⟨h1, h2⟩ := h
    refine ⟨?_, by simp [← h1], ?_⟩
    · rw [← h1, ← h2, ← ht, List.takeWhile_append_dropWhile]
    · intro x hx
      apply mem_takeWhile_sat l x
      rw [ht, h1]
      exact hx

theorem munch_of_run {p : Char → Bool} :
    ∀ (o t : List Char), o ≠ [] → (∀ c ∈ o, p c = true) →
      munch p (o ++ t) = some (o ++ t.takeWhile p, t.dropWhile p) := by
  intro o t ho hall
  unfold munch
  rw [takeWhile_append_of_all o t hall, dropWhile_append_of_all o t hall]
  cases o with
  | nil => exact absurd rfl ho
  | cons a as => rfl

theorem expectSlash_some :
    ∀ (s r : List Char), expectSlash s = some r → s = '/' :: r := by
  intro s r h
  cases s with
  | nil => simp [expectSlash] at h
  | cons c cs =>
    by_cases hc : c = '/'
    · subst hc
      simp only [expectSlash, beq_self_eq_true, if_true, Option.some.injEq] at h
      rw [h]
    · simp [expectSlash, hc] at h

/-- A successful match decomposes the text into the matched URL (group 0)
followed by the remainder, with the three groups non-empty and over their
character classes. -/
theorem matchPrAt_some_shape :
    ∀ (s : List Char) (m : PrMatch), matchPrAt s = some m →
      ∃ rest, s = matchUrl m ++ rest ∧
        m.owner ≠ [] ∧ m.repo ≠ [] ∧ m.digits ≠ [] ∧
        (∀ c ∈ m.owner, isNameChar c = true) ∧
        (∀ c ∈ m.repo, isNameChar c = true) ∧
        (∀ c ∈ m.digits, Char.isDigit c = true) := by
  intro s m h
  unfold matchPrAt at h
  simp only [bind, Option.bind_eq_some, pure, Option.some.injEq] at h
  obtain ⟨r1, h1, ⟨owner, r2⟩, h2, r3, h3, ⟨repo, r4⟩, h4, r5, h5, ⟨digits, r6⟩,
    h6, hm⟩ := h
  obtain ⟨e1, ho1, ho2⟩ := munch_some_spec r1 owner r2 h2
  obtain ⟨e3, hr1, hr2⟩ := munch_some_spec r3 repo r4 h4
  obtain ⟨e5, hd1, hd2⟩ := munch_some_spec r5 digits r6 h6
  have hs := dropLit_some urlLit s r1 h1
  have hsl := expectSlash_some r2 r3 h3
  have h45 := dropLit_some pullLit r4 r5 h5
  refine ⟨r6, ?_, ?_, ?_, ?_, ?_, ?_, ?_⟩
  · rw [hs, e1, hsl, e3, h45, e5, ← hm]
    simp [matchUrl, List.append_assoc]
  · rw [← hm]; exact ho1
  · rw [← hm]; exact hr1
  · rw [← hm]; exact hd1
  · rw [← hm]; exact ho2
  · rw [← hm]; exact hr2
  · rw [← hm]; exact hd2

theorem isNameChar_slash : isNameChar '/' = false := by decide

/-- A pattern-shaped head of the text makes the matcher succeed (the greedy
runs can only extend the witness's groups, never miss them). -/
theorem matchPrAt_ne_none_of_shape :
    ∀ s : List Char, PrShapedAt s → matchPrAt s ≠ none := by
  rintro s ⟨o, r, d, rest, hs, ho, hr, hd, hao, har, had⟩
  subst hs
  have hmo : munch isNameChar (o ++ '/' :: (r ++ (pullLit ++ (d ++ rest))))
      = some (o, '/' :: (r ++ (pullLit ++ (d ++ rest)))) := by
    rw [munch_of_run o _ ho hao]
    simp [List.takeWhile_cons, List.dropWhile_cons, isNameChar_slash]
  have hmr : munch isNameChar (r ++ (pullLit ++ (d ++ rest)))
      = some (r, pullLit ++ (d ++ rest)) := by
    rw [munch_of_run r _ hr har]
    simp [pullLit, List.takeWhile_cons, List.dropWhile_cons, isNameChar_slash]
  have hmd : munch Char.isDigit (d ++ rest)
      = some (d ++ rest.takeWhile Char.isDigit, rest.dropWhile Char.isDigit) :=
    munch_of_run d rest hd had
  unfold matchPrAt
  simp [bind, dropLit_app, hmo, hmr, hmd, expectSlash, dropLit_app, pure]

/-- The matcher fails exactly on texts whose head is not pattern-shaped. -/
theorem matchPrAt_none_iff :
    ∀ s : List Char, matchPrAt s = none ↔ ¬ PrShapedAt s := by
  intro s
  constructor
  · intro h hshape
    exact matchPrAt_ne_none_of_shape s hshape h
  · intro h
    cases hm : matchPrAt s with
    | none => rfl
    | some m =>
      obtain ⟨rest, he, ho, hr, hd, hao, har, had⟩ := matchPrAt_some_shape s m hm
      exact absurd ⟨m.owner, m.repo, m.digits, rest, by
        rw [he]; simp [matchUrl, List.append_assoc], ho, hr, hd, hao, har, had⟩ h

/-- `searchPr` fails exactly when the matcher fails at every position. -/
theorem searchPr_none_iff :
    ∀ l : List Char, searchPr l = none ↔
      ∀ l1 l2, l = l1 ++ l2 → matchPrAt l2 = none := by
  intro l
  induction l with
  | nil =>
    simp only [searchPr, true_iff]
    intro l1 l2 he
    obtain ⟨h1, h2⟩ := List.append_eq_nil.mp he.symm
    subst h2
    rfl
  | cons c cs ih =>
    constructor
    · intro h l1 l2 he
      have hsplit : matchPrAt (c :: cs) = none ∧ searchPr cs = none := by
        unfold searchPr at h
        cases hm : matchPrAt (c :: cs) with
        | some m => rw [hm] at h; simp at h
        | none => rw [hm] at h; exact ⟨rfl, h⟩
      cases l1 with
      | nil =>
        simp only [List.nil_append] at he
        rw [← he]
        exact hsplit.1
      | cons b bs =>
        injection he with hcb he2
        exact (ih.mp hsplit.2) bs l2 he2
    · intro h
      have h1 : matchPrAt (c :: cs) = none := h [] (c :: cs) rfl
      have h2 : searchPr cs = none :=
        ih.mpr (fun l1 l2 he => h (c :: l1) l2 (by rw [he, List.cons_append]))
      unfold searchPr
      rw [h1, h2]

/-- A successful search is the match at the leftmost matching position. -/
theorem searchPr_some_first :
    ∀ (l : List Char) (m : PrMatch), searchPr l = some m →
      ∃ l1 l2, l = l1 ++ l2 ∧ matchPrAt l2 = some m ∧
        ∀ p s, l = p ++ s → p.length < l1.length → matchPrAt s = none := by
  intro l
  induction l with
  | nil => intro m h; simp [searchPr] at h
  | cons c cs ih =>
    intro m h
    unfold searchPr at h
    cases hm : matchPrAt (c :: cs) with
    | some m2 =>
      rw [hm] at h
      injection h with hm2
      subst hm2
      exact ⟨[], c :: cs, rfl, hm, by intro p s hp hl; simp at hl⟩
    | none =>
      rw [hm] at h
      obtain ⟨l1, l2, he, hmm, hmin⟩ := ih m h
      refine ⟨c :: l1, l2, by rw [he, List.cons_append], hmm, ?_⟩
      intro p s hp hl
      cases p with
      | nil =>
        simp only [List.nil_append] at hp
        rw [← hp]
        exact hm
      | cons b bs =>
        injection hp with hcb hp2
        exact hmin bs s hp2 (by simpa using hl)

/-! ### Theorems about PR-URL extraction -/

/-- The positivity invariant of claim C5 taken literally (modelled from the
claim's wording, to be refuted): every `ParsedPR` returned by `extract_pr`
has a positive pull number. -/
def pullNumberPositiveAsClaimed : Prop :=
  ∀ (text : String) (pr : ParsedPR), extract_pr text = some pr → 0 < pr.pull_number

/-- Claim C5 counterexample: the digits group `\d+` also matches "0", so
the text "https://github.com/a/b/pull/0" yields a `ParsedPR` with
`pull_number = 0`, violating the claimed invariant `pullNumber > 0`. -/
theorem extract_pr_zero_pull_number : ¬ pullNumberPositiveAsClaimed := by
  intro h
  have h0 := h "https://github.com/a/b/pull/0"
    ⟨"a", "b", 0, "https://github.com/a/b/pull/0"⟩ (by decide)
  exact absurd h0 (by decide)

/-- Claim C5 as amended: `extract_pr` returns `none` exactly when no position
of the text starts a substring of the pull-request URL shape; otherwise it
returns the `ParsedPR` built from the leftmost match — owner, repo and the
greedily-taken digits of that match, with the url the exact matched
substring, owner and repo non-empty over the class of alphanumerics, `.`,
`_`, `-`, and the pull number the (possibly zero) numeric value of the
non-empty digits group. -/
theorem extract_pr_first_match :
    ∀ text : String,
      (extract_pr text = none ↔
        ¬ ∃ l1 l2, text.toList = l1 ++ l2 ∧ PrShapedAt l2) ∧
      (∀ pr : ParsedPR, extract_pr text = some pr →
        ∃ l1 l2 m rest, text.toList = l1 ++ l2 ∧ matchPrAt l2 = some m ∧
          (∀ p s, text.toList = p ++ s → p.length < l1.length → ¬ PrShapedAt s) ∧
          pr = ⟨String.mk m.owner, String.mk m.repo, digitsToNat m.digits,
            String.mk (matchUrl m)⟩ ∧
          l2 = matchUrl m ++ rest ∧
          m.owner ≠ [] ∧ m.repo ≠ [] ∧ m.digits ≠ [] ∧
          (∀ c ∈ m.owner, isNameChar c = true) ∧
          (∀ c ∈ m.repo, isNameChar c = true) ∧
          (∀ c ∈ m.digits, Char.isDigit c = true)) := by
  intro text
  constructor
  · unfold extract_pr
    cases hs : searchPr text.toList with
    | none =>
      constructor
      · rintro _ ⟨l1, l2, he, hshape⟩
        exact (matchPrAt_none_iff l2).mp
          ((searchPr_none_iff text.toList).mp hs l1 l2 he) hshape
      · intro _; rfl
    | some m =>
      constructor
      · intro h; simp at h
      · intro hno
        exfalso
        obtain ⟨l1, l2, he, hmm, _⟩ := searchPr_some_first text.toList m hs
        obtain ⟨rest, he2, ho, hr, hd, hao, har, had⟩ := matchPrAt_some_shape l2 m hmm
        exact hno ⟨l1, l2, he, m.owner, m.repo, m.digits, rest, by
          rw [he2]; simp [matchUrl, List.append_assoc], ho, hr, hd, hao, har, had⟩
  · intro pr hpr
    unfold extract_pr at hpr
    cases hs : searchPr text.toList with
    | none => rw [hs] at hpr; simp at hpr
    | some m =>
      rw [hs] at hpr
      injection hpr with hpr2
      obtain ⟨l1, l2, he, hmm, hmin⟩ := searchPr_some_first text.toList m hs
      obtain ⟨rest, he2, ho, hr, hd, hao, har, had⟩ := matchPrAt_some_shape l2 m hmm
      refine ⟨l1, l2, m, rest, he, hmm, ?_, hpr2.symm, he2, ho, hr, hd, hao, har, had⟩
      intro p s hp hl hshape
      exact (matchPrAt_none_iff s).mp (hmin p s hp hl) hshape

/-- Claim C5 witness: the extraction evaluated at the spec's own example and
at a text with no URL. -/
theorem extract_pr_first_match_witness :
    extract_pr "please merge https://github.com/acme/widgets/pull/7"
      = some ⟨"acme", "widgets", 7, "https://github.com/acme/widgets/pull/7"⟩ ∧
    extract_pr "just a plain message" = none := by
  exact ⟨by decide, by decide⟩

/-! ## Merge-intent detection (`slack_handler.py`, `_MERGE_KEYWORDS`) -/

/-- Case-insensitive literal match: consume `pat` (written lowercase) from
the head of `s`, comparing lowercased characters, and return the remainder.
Models a literal piece of a regex compiled with `re.IGNORECASE`. -/
def dropLitCI : List Char → List Char → Option (List Char)
  | [], s => some s
  | _ :: _, [] => none
  | p :: ps, c :: cs => if p == c.toLower then dropLitCI ps cs else none

/-- The literal `merge` of `_MERGE_KEYWORDS`. -/
def mergeWord : List Char := ['m', 'e', 'r', 'g', 'e']

/-- The literal `can` of the alternative `can\s+u`. -/
def canWord : List Char := ['c', 'a', 'n']

/-- The literal `please` of the alternative `please\s+merge`. -/
def pleaseWord : List Char := ['p', 'l', 'e', 'a', 's', 'e']

/-- A `\b` word boundary against the character on the given side (`none` is
the edge of the text). -/
def boundaryOk : Option Char → Bool
  | none => true
  | some c => !(isWordChar c)

/-- The boundary after a match: end of text or a non-word character. -/
def headBoundaryOk : List Char → Bool
  | [] => true
  | c :: _ => !(isWordChar c)

/-- The alternative `\bmerge\b` matching at this position, `prev` being the
character just before the position. -/
def wordMergeHere (prev : Option Char) (s : List Char) : Bool :=
  match dropLitCI mergeWord s with
  | none => false
  | some rest => boundaryOk prev && headBoundaryOk rest

/-- The alternative `can\s+u` matching at this position (no word
boundaries in the pattern). -/
def canUHere (s : List Char) : Bool :=
  match dropLitCI canWord s with
  | none => false
  | some rest =>
    match rest with
    | [] => false
    | c :: r =>
      pyIsSpace c &&
        match r.dropWhile pyIsSpace with
        | [] => false
        | u :: _ => u.toLower == 'u'

/-- The alternative `please\s+merge` matching at this position. -/
def pleaseMergeHere (s : List Char) : Bool :=
  match dropLitCI pleaseWord s with
  | none => false
  | some rest =>
    match rest with
    | [] => false
    | c :: r => pyIsSpace c && (dropLitCI mergeWord (r.dropWhile pyIsSpace)).isSome

/-- Any alternative of `_MERGE_KEYWORDS` matching at this position. -/
def keywordHere (prev : Option Char) (s : List Char) : Bool :=
  wordMergeHere prev s || canUHere s || pleaseMergeHere s

/-- `re.search` over the alternation: try every position left to right,
tracking the previous character for the word boundary. -/
def scanKeywords : Option Char → List Char → Bool
  | _, [] => false
  | prev, c :: cs => keywordHere prev (c :: cs) || scanKeywords (some c) cs

/-- `has_merge_intent`: `bool(_MERGE_KEYWORDS.search(text))`. -/
def has_merge_intent (text : String) : Bool :=
  scanKeywords none text.toList

/-- The character standing just before the position reached after `l`, when
the character before `l` was `prev`. -/
def lastOr (prev : Option Char) : List Char → Option Char
  | [] => prev
  | c :: cs => lastOr (some c) cs

/-- The text contains the standalone whole word "merge" (case-insensitive,
with `\b` boundaries on both sides). -/
def containsWordMerge (text : String) : Prop :=
  ∃ l1 l2, text.toList = l1 ++ l2 ∧ wordMergeHere (lastOr none l1) l2 = true

/-- The text contains "can", one or more whitespace characters, then "u"
(case-insensitive, no word boundaries). -/
def containsCanU (text : String) : Prop :=
  ∃ l1 l2, text.toList = l1 ++ l2 ∧ canUHere l2 = true

/-- The text contains "please", whitespace, then "merge" (case-insensitive,
no word boundaries). -/
def containsPleaseMerge (text : String) : Prop :=
  ∃ l1 l2, text.toList = l1 ++ l2 ∧ pleaseMergeHere l2 = true

/-- The scan succeeds exactly when some split of the text puts a keyword
match at its seam. -/
theorem scanKeywords_iff (l : List Char) :
    ∀ prev, scanKeywords prev l = true ↔
      ∃ l1 l2, l = l1 ++ l2 ∧ keywordHere (lastOr prev l1) l2 = true := by
  induction l with
  | nil =>
    intro prev
    constructor
    · intro h; exact absurd h (by simp [scanKeywords])
    · rintro ⟨l1, l2, he, hk⟩
      obtain ⟨h1, h2⟩ := List.append_eq_nil.mp he.symm
      subst h1; subst h2
      exact absurd hk (by simp [keywordHere, wordMergeHere, canUHere,
        pleaseMergeHere, dropLitCI, mergeWord, canWord, pleaseWord])
  | cons c cs ih =>
    intro prev
    simp only [scanKeywords, Bool.or_eq_true]
    constructor
    · rintro (h | h)
      · exact ⟨[], c :: cs, rfl, h⟩
      · obtain ⟨l1, l2, he, hk⟩ := (ih (some c)).mp h
        exact ⟨c :: l1, l2, by rw [he, List.cons_append], hk⟩
    · rintro ⟨l1, l2, he, hk⟩
      cases l1 with
      | nil =>
        simp only [List.nil_append] at he
        subst he
        exact Or.inl hk
      | cons d l1t =>
        injection he with hcd he2
        subst hcd
        exact Or.inr ((ih (some c)).mpr ⟨l1t, l2, he2, hk⟩)

/-! ## Theorems about merge-intent detection -/

/-- Claim C6: `has_merge_intent` returns true exactly when the text contains
the standalone whole word "merge" (case-insensitively, never as a substring
of a longer word) or one of the phrases "can u" / "please merge"; in
particular "MERGE it now" yields true and "submerged" alone yields false. -/
theorem has_merge_intent_characterization :
    ∀ text : String,
      (has_merge_intent text = true ↔
        containsWordMerge text ∨ containsCanU text ∨ containsPleaseMerge text) ∧
      has_merge_intent "MERGE it now" = true ∧
      has_merge_intent "submerged" = false := by
  intro text
  refine ⟨?_, by decide, by decide⟩
  unfold has_merge_intent
  rw [scanKeywords_iff]
  constructor
  · rintro ⟨l1, l2, he, hk⟩
    have hk2 : wordMergeHere (lastOr none l1) l2 = true ∨ canUHere l2 = true ∨
        pleaseMergeHere l2 = true := by
      simpa [keywordHere, Bool.or_assoc] using hk
    rcases hk2 with h | h | h
    · exact Or.inl ⟨l1, l2, he, h⟩
    · exact Or.inr (Or.inl ⟨l1, l2, he, h⟩)
    · exact Or.inr (Or.inr ⟨l1, l2, he, h⟩)
  · rintro (⟨l1, l2, he, hk⟩ | ⟨l1, l2, he, hk⟩ | ⟨l1, l2, he, hk⟩) <;>
      exact ⟨l1, l2, he, by simp [keywordHere, hk]⟩

/-- Claim C10: the phrase alternatives carry no word boundaries — every text
containing "can", whitespace, then "u", even inside longer words, makes
`has_merge_intent` return true. -/
theorem has_merge_intent_can_u_no_boundary :
    ∀ text : String, containsCanU text → has_merge_intent text = true := by
  rintro text ⟨l1, l2, he, hk⟩
  exact (scanKeywords_iff text.toList none).mpr ⟨l1, l2, he, by simp [keywordHere, hk]⟩

/-- Claim C10 witness: "american university" contains "can" + space + "u"
only inside longer words, yet the intent matcher fires. -/
theorem has_merge_intent_can_u_no_boundary_witness :
    has_merge_intent "american university" = true :=
  has_merge_intent_can_u_no_boundary "american university"
    ⟨"ameri".toList, "can university".toList, by decide, by decide⟩

/-! ## Theorems about the signature verifier -/

/-- Claim C2: `verify_slack_signature` returns true exactly when the
timestamp header parses as an integer, the absolute distance between the
current time and the timestamp is at most 300 seconds, and the signature
header equals "v0=" followed by the keyed digest of "v0:" ++ timestamp ++
":" ++ body under the shared secret; in particular it returns false for
every non-integer timestamp and for every timestamp more than 300 seconds
before or after the current time. -/
theorem verify_slack_signature_spec :
    ∀ (hmacSha256Hex : String → String → String) (now : Int)
      (body timestamp signature signing_secret : String),
      (verify_slack_signature hmacSha256Hex now body timestamp signature signing_secret
          = true ↔
        ∃ t : Int, pyParseInt timestamp = some t ∧ (now - t).natAbs ≤ 300 ∧
          signature = "v0=" ++ hmacSha256Hex signing_secret
            ("v0:" ++ timestamp ++ ":" ++ body)) ∧
      (pyParseInt timestamp = none →
        verify_slack_signature hmacSha256Hex now body timestamp signature signing_secret
          = false) ∧
      (∀ t : Int, pyParseInt timestamp = some t → 300 < (now - t).natAbs →
        verify_slack_signature hmacSha256Hex now body timestamp signature signing_secret
          = false) := by
  intro hm now body timestamp signature signing_secret
  refine ⟨?_, ?_, ?_⟩
  · unfold verify_slack_signature
    cases hp : pyParseInt timestamp with
    | none => simp
    | some t =>
      by_cases hw : 300 < (now - t).natAbs
      · simp only [if_pos hw]
        constructor
        · intro h; exact absurd h (by simp)
        · rintro ⟨t2, ht2, hle, _⟩
          cases ht2
          omega
      · simp only [if_neg hw]
        constructor
        · intro h
          refine ⟨t, rfl, by omega, ?_⟩
          exact (beq_iff_eq.mp h).symm
        · rintro ⟨t2, ht2, hle, hsig⟩
          cases ht2
          exact beq_iff_eq.mpr hsig.symm
  · intro hp; unfold verify_slack_signature; rw [hp]
  · intro t hp hw; unfold verify_slack_signature; rw [hp]; simp [if_pos hw]

/-- Claim C2 witness: the characterization evaluated at concrete inputs —
a matching signature inside the window verifies, a non-integer timestamp and
a 301-second-old timestamp fail closed. -/
theorem verify_slack_signature_spec_witness :
    verify_slack_signature hmacStub 1000 "payload" "1000" "v0=sec|v0:1000:payload" "sec"
      = true ∧
    verify_slack_signature hmacStub 1000 "payload" "notanumber" "v0=x" "sec" = false ∧
    verify_slack_signature hmacStub 1000 "payload" "699" "v0=sec|v0:699:payload" "sec"
      = false := by
  refine ⟨?_, ?_, ?_⟩
  · exact (verify_slack_signature_spec hmacStub 1000 "payload" "1000"
      "v0=sec|v0:1000:payload" "sec").1.mpr ⟨1000, by decide, by decide, by decide⟩
  · exact (verify_slack_signature_spec hmacStub 1000 "payload" "notanumber"
      "v0=x" "sec").2.1 (by decide)
  · exact (verify_slack_signature_spec hmacStub 1000 "payload" "699"
      "v0=sec|v0:699:payload" "sec").2.2 699 (by decide) (by decide)

/-! ## Theorems about the merge orchestrator -/

/-- Claim C1 (code bug): contrary to the claim and to the docstring of
`merge_pull_request` ("Never raises — all GitHub API errors are captured and
surfaced via MergeResult"), the orchestrator propagates uncaught exceptions:
a transport error or timeout on the fetch, a 200 fetch response whose body is
not parseable JSON, and a transport error on the merge call all escape as
exceptions instead of becoming an `ERROR` outcome.  This theorem evaluates
the code at those failing inputs. -/
theorem merge_pull_request_uncaught_exceptions :
    ∀ (e e2 : String) (mergeResp : HttpReply (Option MergeBody))
      (owner repo : String) (n : Nat),
      merge_pull_request (.transportError e) mergeResp owner repo n = .error e ∧
      merge_pull_request (.response 200 none) mergeResp owner repo n
        = .error jsonDecodeErrorMsg ∧
      merge_pull_request (.response 200 (some ⟨some false, some "open", some true⟩))
        (.transportError e2) owner repo n = .error e2 :=
  fun _ _ _ _ _ _ => ⟨rfl, rfl, rfl⟩

/-- Claim C3: in Step 1 the first matching rule decides the outcome —
HTTP 404 gives NOT_FOUND, any other non-200 gives ERROR, `merged == true`
gives ALREADY_MERGED, a closed unmerged PR gives ERROR, `mergeable == false`
gives CONFLICT, and in every remaining case (including `mergeable`
null/unknown) Step 2 proceeds; any Step 1 outcome short-circuits, so the
merge call's response is never consulted. -/
theorem get_pr_state_classification :
    ∀ (status : Nat) (body : Option PrBody) (owner repo : String) (n : Nat),
      (status = 404 → get_pr_state (.response status body) owner repo n
          = .ok (some ⟨.not_found, fetchNotFoundMsg owner repo n⟩)) ∧
      (status ≠ 404 → status ≠ 200 → get_pr_state (.response status body) owner repo n
          = .ok (some ⟨.error, fetchErrorMsg n status⟩)) ∧
      (∀ d : PrBody, status = 200 → body = some d →
        (d.merged = some true → get_pr_state (.response status body) owner repo n
            = .ok (some ⟨.already_merged, alreadyMergedMsg n⟩)) ∧
        (d.merged ≠ some true → d.state = some "closed" →
          get_pr_state (.response status body) owner repo n
            = .ok (some ⟨.error, closedMsg n⟩)) ∧
        (d.merged ≠ some true → d.state ≠ some "closed" → d.mergeable = some false →
          get_pr_state (.response status body) owner repo n
            = .ok (some ⟨.conflict, conflictMsg n⟩)) ∧
        (d.merged ≠ some true → d.state ≠ some "closed" → d.mergeable ≠ some false →
          get_pr_state (.response status body) owner repo n = .ok none)) ∧
      (∀ res : MergeResult,
        get_pr_state (.response status body) owner repo n = .ok (some res) →
        ∀ mergeResp, merge_pull_request (.response status body) mergeResp owner repo n
          = .ok res) := by
  intro status body owner repo n
  refine ⟨?_, ?_, ?_, ?_⟩
  · rintro rfl; rfl
  · intro h404 h200; simp [get_pr_state, h404, h200]
  · rintro d rfl rfl
    refine ⟨?_, ?_, ?_, ?_⟩
    · intro hm; simp [get_pr_state, hm]
    · intro hm hs; simp [get_pr_state, hm, hs]
    · intro hm hs hmg; simp [get_pr_state, hm, hs, hmg]
    · intro hm hs hmg; simp [get_pr_state, hm, hs, hmg]
  · intro res h mergeResp
    unfold merge_pull_request
    rw [h]

/-- Claim C3 witness: the classification and the short-circuit evaluated at
concrete responses — an already-merged PR short-circuits Step 1 and the merge
call's response is ignored. -/
theorem get_pr_state_classification_witness :
    get_pr_state (.response 404 none) "acme" "widgets" 7
      = .ok (some ⟨.not_found, fetchNotFoundMsg "acme" "widgets" 7⟩) ∧
    get_pr_state (.response 200 (some ⟨some true, some "closed", none⟩)) "acme" "widgets" 7
      = .ok (some ⟨.already_merged, alreadyMergedMsg 7⟩) ∧
    merge_pull_request (.response 200 (some ⟨some true, some "closed", none⟩))
      (.transportError "never sent") "acme" "widgets" 7
      = .ok ⟨.already_merged, alreadyMergedMsg 7⟩ := by
  refine ⟨?_, ?_, ?_⟩
  · exact (get_pr_state_classification 404 none "acme" "widgets" 7).1 rfl
  · exact ((get_pr_state_classification 200 _ "acme" "widgets" 7).2.2.1
      ⟨some true, some "closed", none⟩ rfl rfl).1 rfl
  · exact (get_pr_state_classification 200 _ "acme" "widgets" 7).2.2.2 _
      (((get_pr_state_classification 200 _ "acme" "widgets" 7).2.2.1
        ⟨some true, some "closed", none⟩ rfl rfl).1 rfl) _

/-- The error-message rule of claim C4 taken literally (modelled from the
claim's wording, to be refuted): on any non-200 status other than 405, 409
and 404, the `ERROR` outcome's reason is the response body's `message` field
whenever that field is present in a parseable body. -/
def mergeErrorMessageRuleAsClaimed : Prop :=
  ∀ (status : Nat) (m : String) (n : Nat),
    status ≠ 200 → status ≠ 405 → status ≠ 409 → status ≠ 404 →
    parse_merge_response status (some ⟨some m⟩) n = ⟨.error, mergeErrorMsg n m⟩

/-- Claim C4 counterexample: a 500 response whose parseable body carries the
present-but-empty message field "" is reported with the fallback reason
"HTTP 500", not with the message field — Python's `or` discards the falsy
empty string. -/
theorem parse_merge_response_empty_message_fallback :
    ¬ mergeErrorMessageRuleAsClaimed := by
  intro h
  have h500 := h 500 "" 42 (by decide) (by decide) (by decide) (by decide)
  have : parse_merge_response 500 (some ⟨some ""⟩) 42
      = ⟨.error, mergeErrorMsg 42 "HTTP 500"⟩ := by decide
  rw [this] at h500
  exact absurd h500 (by decide)

/-- Claim C4 as amended: for every merge-call response, HTTP 200 gives
SUCCESS; HTTP 405 whose body message contains "not mergeable" or "conflict"
case-insensitively gives CONFLICT; HTTP 405 otherwise gives CHECKS_PENDING;
HTTP 409 gives CONFLICT; HTTP 404 gives NOT_FOUND; any other non-200 status
gives ERROR with a message taken from the response body's message field when
present, parseable and non-empty, else "HTTP code". -/
theorem parse_merge_response_classification :
    ∀ (status : Nat) (body : Option MergeBody) (n : Nat),
      (status = 200 → parse_merge_response status body n = ⟨.success, mergedOkMsg n⟩) ∧
      (status = 405 → mentionsConflict body = true →
        parse_merge_response status body n = ⟨.conflict, conflictMsg n⟩) ∧
      (status = 405 → mentionsConflict body = false →
        parse_merge_response status body n = ⟨.checks_pending, checksMsg n⟩) ∧
      (status ≠ 200 → status ≠ 405 → status = 409 →
        parse_merge_response status body n = ⟨.conflict, conflictMsg n⟩) ∧
      (status ≠ 200 → status ≠ 405 → status ≠ 409 → status = 404 →
        parse_merge_response status body n = ⟨.not_found, mergeNotFoundMsg n⟩) ∧
      (status ≠ 200 → status ≠ 405 → status ≠ 409 → status ≠ 404 →
        (∀ m : String, messageField body = some m → m ≠ "" →
          parse_merge_response status body n = ⟨.error, mergeErrorMsg n m⟩) ∧
        (messageField body = none ∨ messageField body = some "" →
          parse_merge_response status body n
            = ⟨.error, mergeErrorMsg n ("HTTP " ++ toString status)⟩)) := by
  intro status body n
  refine ⟨?_, ?_, ?_, ?_, ?_, ?_⟩
  · rintro rfl; rfl
  · rintro rfl hc; simp [parse_merge_response, hc]
  · rintro rfl hc; simp [parse_merge_response, hc]
  · rintro h200 h405 rfl; simp [parse_merge_response]
  · rintro h200 h405 h409 rfl; simp [parse_merge_response]
  · intro h200 h405 h409 h404
    constructor
    · intro m hm hne
      simp [parse_merge_response, h200, h405, h409, h404, hm, hne]
    · rintro (hm | hm) <;> simp [parse_merge_response, h200, h405, h409, h404, hm]

/-- Claim C4 witness: the amended classification evaluated at the concrete
responses of the repository's own tests, plus the empty-message fallback. -/
theorem parse_merge_response_classification_witness :
    parse_merge_response 405 (some ⟨some "Pull Request is not mergeable"⟩) 42
      = ⟨.conflict, conflictMsg 42⟩ ∧
    parse_merge_response 405 (some ⟨some "Required status checks failed"⟩) 42
      = ⟨.checks_pending, checksMsg 42⟩ ∧
    parse_merge_response 502 (some ⟨some "Bad gateway"⟩) 42
      = ⟨.error, mergeErrorMsg 42 "Bad gateway"⟩ ∧
    parse_merge_response 502 (some ⟨some ""⟩) 42
      = ⟨.error, mergeErrorMsg 42 "HTTP 502"⟩ := by
  refine ⟨?_, ?_, ?_, ?_⟩
  · exact (parse_merge_response_classification 405 _ 42).2.1 rfl (by decide)
  · exact (parse_merge_response_classification 405 _ 42).2.2.1 rfl (by decide)
  · exact ((parse_merge_response_classification 502 _ 42).2.2.2.2.2 (by decide)
      (by decide) (by decide) (by decide)).1 "Bad gateway" rfl (by decide)
  · exact ((parse_merge_response_classification 502 _ 42).2.2.2.2.2 (by decide)
      (by decide) (by decide) (by decide)).2 (Or.inr rfl)

/-- Claim C9: a merge-call response whose body is not parseable JSON does not
raise — the body is treated exactly like an empty JSON object, a 405 with
such a body is classified CHECKS_PENDING, and any status other than 200,
405, 409 and 404 is classified ERROR with the fallback reason "HTTP code". -/
theorem parse_merge_response_unparseable_body :
    ∀ (status n : Nat),
      parse_merge_response status none n = parse_merge_response status (some ⟨none⟩) n ∧
      (status = 405 → parse_merge_response status none n
        = ⟨.checks_pending, checksMsg n⟩) ∧
      (status ≠ 200 → status ≠ 405 → status ≠ 409 → status ≠ 404 →
        parse_merge_response status none n
          = ⟨.error, mergeErrorMsg n ("HTTP " ++ toString status)⟩) := by
  intro status n
  refine ⟨rfl, ?_, ?_⟩
  · rintro rfl
    have : mentionsConflict none = false := by decide
    simp [parse_merge_response, this]
  · intro h200 h405 h409 h404
    simp [parse_merge_response, h200, h405, h409, h404, messageField]

/-- Claim C9 witness: the unparseable-body behaviour evaluated at a 405 and
at a 500 response. -/
theorem parse_merge_response_unparseable_body_witness :
    parse_merge_response 405 none 7 = ⟨.checks_pending, checksMsg 7⟩ ∧
    parse_merge_response 500 none 7
      = ⟨.error, mergeErrorMsg 7 ("HTTP " ++ toString 500)⟩ := by
  constructor
  · exact (parse_merge_response_unparseable_body 405 7).2.1 rfl
  · exact (parse_merge_response_unparseable_body 500 7).2.2 (by decide) (by decide)
      (by decide) (by decide)

/-! ## Theorems about the authorization gate -/

/-- Claim C7: `is_authorized` returns false whenever the authorized set is
empty, for every sender identity including the empty string; when the set is
non-empty it returns exactly the membership test of the identity. -/
theorem is_authorized_spec :
    ∀ (uid : String) (settings : Settings),
      (authorized_user_ids settings = [] → is_authorized uid settings = false) ∧
      (authorized_user_ids settings ≠ [] →
        (is_authorized uid settings = true ↔ uid ∈ authorized_user_ids settings)) := by
  intro uid settings
  constructor
  · intro h; simp [is_authorized, h]
  · intro h; simp [is_authorized, h]

/-- Claim C7 witness: an unconfigured allow-list denies even the empty
identity, and a configured one admits exactly its members. -/
theorem is_authorized_spec_witness :
    is_authorized "" ⟨"xoxb", "sec", "ghp", ""⟩ = false ∧
    is_authorized "U111" ⟨"xoxb", "sec", "ghp", "U111,U222"⟩ = true ∧
    is_authorized "U999" ⟨"xoxb", "sec", "ghp", "U111,U222"⟩ = false := by
  refine ⟨?_, ?_, ?_⟩
  · exact (is_authorized_spec "" _).1 (by decide)
  · exact ((is_authorized_spec "U111" _).2 (by decide)).mpr (by decide)
  · decide

end Takeoff
